import Mathlib

/-!
# Verification development for `ocr-deploy-script`

Shallow embedding of the wallet set (`client/blockchain.go`) and of the
contract deployer with its gas-price adjustment (`deployer/deployer.go`).

Conventions of the embedding

* a Go `error` is its message; a `nil` error is `none`;
* a Go function returning `(T, error)` returns a pair of options;
* a run-time panic is an explicit outcome (`Go.panic`);
* `*big.Int` values are pointers into an explicit heap: `big.NewInt`
  allocates a new cell, and `==` on two `*big.Int` compares the pointers,
  as the Go language defines equality of pointer values.
-/

namespace OcrDeploy

/-- Go `error` values, identified by their message. -/
abbrev Error := String

/-- Outcome of a Go call: a normal return or a run-time panic. -/
inductive Go (α : Type) where
  | ret (a : α)
  | panic (msg : String)
  deriving DecidableEq, Repr

/-! ## `math/big` integers behind pointers -/

/-- A `*big.Int`: the address of a heap cell. -/
abbrev Ptr := Nat

/-- The cells allocated so far; the address of a cell is its position. -/
structure Heap where
  cells : List Int
  deriving DecidableEq, Repr

/-- `big.NewInt(v)`: allocates a cell holding `v` and returns its address. -/
def Heap.NewInt (h : Heap) (v : Int) : Ptr × Heap :=
  (h.cells.length, ⟨h.cells ++ [v]⟩)

/-- The integer a pointer refers to. -/
def Heap.read (h : Heap) (p : Ptr) : Int :=
  h.cells.getD p 0

/-- Overwrites the integer a pointer refers to (receiver of `Add`, `Mul`, `Div`). -/
def Heap.write (h : Heap) (p : Ptr) (v : Int) : Heap :=
  ⟨h.cells.set p v⟩

/-- The body of the slow-finality branch of `AdjustGasPrice`:
`x, y, z := big.NewInt(0), big.NewInt(0), big.NewInt(0)` and
`x.Add(gasPrice, y.Div(z.Mul(gasPrice, big.NewInt(2)), big.NewInt(100)))`.
`big.Int.Div` is Euclidean division. -/
def markupBranch (gasPrice : Ptr) (h : Heap) : Ptr × Heap :=
  let (x, h) := h.NewInt 0
  let (y, h) := h.NewInt 0
  let (z, h) := h.NewInt 0
  let (two, h) := h.NewInt 2
  let h := h.write z (h.read gasPrice * h.read two)
  let (hundred, h) := h.NewInt 100
  let h := h.write y (Int.ediv (h.read z) (h.read hundred))
  let h := h.write x (h.read gasPrice + h.read y)
  (x, h)

/-- `RskContractDeployer.AdjustGasPrice` (deployer.go 269-282).

`SuggestGasPrice` is the answer of the fee endpoint, `ChainID` the configured
`networkConfig.ChainID`.  `e.eth.Network.ChainID()` is
`big.NewInt(e.networkConfig.ChainID)`, a newly allocated integer, and each
`chainId == big.NewInt(n)` compares the two pointers, evaluated left to right
with the short circuit of `||`. -/
def AdjustGasPrice (SuggestGasPrice : Except Error Int) (ChainID : Int) (h : Heap) :
    (Option Ptr × Option Error) × Heap :=
  match SuggestGasPrice with
  | .error err => ((none, some err), h)
  | .ok suggested =>
    let (gasPrice, h) := h.NewInt suggested
    let (chainId, h) := h.NewInt ChainID
    let (c30, h) := h.NewInt 30
    if chainId = c30 then
      let (x, h) := markupBranch gasPrice h
      ((some x, none), h)
    else
      let (c31, h) := h.NewInt 31
      if chainId = c31 then
        let (x, h) := markupBranch gasPrice h
        ((some x, none), h)
      else
        let (c33, h) := h.NewInt 33
        if chainId = c33 then
          let (x, h) := markupBranch gasPrice h
          ((some x, none), h)
        else
          ((some gasPrice, none), h)

/-- The price `AdjustGasPrice` hands back, read through the returned pointer,
together with the returned error. -/
def adjustedPrice (SuggestGasPrice : Except Error Int) (ChainID : Int) (h : Heap) :
    Option Int × Option Error :=
  let r := AdjustGasPrice SuggestGasPrice ChainID h
  (r.1.1.map r.2.read, r.1.2)

/-- The heap without any allocation. -/
def Heap.empty : Heap := ⟨[]⟩

/-! ## Wallet sets (`client/blockchain.go`) -/

/-- The `Wallets` struct: the default index (a Go `int`) and the wallet slice. -/
structure Wallets (W : Type) where
  defaultWallet : Int
  wallets : List W
  deriving DecidableEq, Repr

/-- Go slice indexing `s[i]`: a run-time panic unless `0 <= i < len(s)`. -/
def sliceIndex {W : Type} (s : List W) (i : Int) : Go W :=
  if i < 0 then .panic "index out of range"
  else
    match s.get? i.toNat with
    | some x => .ret x
    | none => .panic "index out of range"

/-- `walletSliceIndexInRange` (blockchain.go 110-115). -/
def walletSliceIndexInRange {W : Type} (wallets : List W) (i : Int) : Option Error :=
  if i > (wallets.length : Int) - 1 then
    some "invalid index in list of wallets"
  else
    none

/-- `Wallets.Default` (blockchain.go 49-52). -/
def Wallets.Default {W : Type} (w : Wallets W) : Go W :=
  sliceIndex w.wallets w.defaultWallet

/-- `Wallets.All` (blockchain.go 54-57). -/
def Wallets.All {W : Type} (w : Wallets W) : List W :=
  w.wallets

/-- `Wallets.SetDefault` (blockchain.go 59-66): the returned error and the
receiver after the call. -/
def Wallets.SetDefault {W : Type} (w : Wallets W) (i : Int) : Option Error × Wallets W :=
  match walletSliceIndexInRange w.wallets i with
  | some err => (some err, w)
  | none => (none, ⟨i, w.wallets⟩)

/-- `Wallets.Wallet` (blockchain.go 68-74). -/
def Wallets.Wallet {W : Type} (w : Wallets W) (i : Int) : Go (Option W × Option Error) :=
  match walletSliceIndexInRange w.wallets i with
  | some err => .ret (none, some err)
  | none =>
    match sliceIndex w.wallets i with
    | .ret x => .ret (some x, none)
    | .panic msg => .panic msg

/-- Go `unicode.IsSpace`: the Latin-1 white space characters and the other
code points with the Unicode White_Space property. -/
def IsSpace (r : Char) : Bool :=
  let n := r.toNat
  (0x09 ≤ n && n ≤ 0x0d) || n == 0x20 || n == 0x85 || n == 0xa0 || n == 0x1680 ||
    (0x2000 ≤ n && n ≤ 0x200a) || n == 0x2028 || n == 0x2029 || n == 0x202f ||
    n == 0x205f || n == 0x3000

/-- Go `strings.TrimSpace`: the string without its leading and trailing
white space, on strings that are sequences of Unicode code points. -/
def TrimSpace (s : String) : String :=
  ⟨(s.data.dropWhile IsSpace).rdropWhile IsSpace⟩

/-- The `for _, key := range keys` loop of `newEthereumWallets`, with the
wallets appended so far. A failed decoding returns `&Wallets{}` (default 0,
no wallets) and the error. -/
def newEthereumWallets.loop {W : Type} (NewEthereumWallet : String → Except Error W) :
    List String → List W → Option (Wallets W) × Option Error
  | [], processedWallets => (some ⟨0, processedWallets⟩, none)
  | key :: rest, processedWallets =>
    match NewEthereumWallet (TrimSpace key) with
    | .error err => (some ⟨0, []⟩, some err)
    | .ok wallet => newEthereumWallets.loop NewEthereumWallet rest (processedWallets ++ [wallet])

/-- `newEthereumWallets` (blockchain.go 88-108). `Fetch` is the answer of
`pkStore.Fetch()`, `NewEthereumWallet` the key decoder of the client library. -/
def newEthereumWallets {W : Type} (NewEthereumWallet : String → Except Error W)
    (Fetch : Except Error (List String)) : Option (Wallets W) × Option Error :=
  match Fetch with
  | .error err => (none, some err)
  | .ok keys => newEthereumWallets.loop NewEthereumWallet keys []

/-- A toy key decoder for concrete evaluations: a key is well formed when it
is not empty, and its wallet is the key itself. -/
def sampleDecode (key : String) : Except Error String :=
  if key = "" then .error "invalid key" else .ok key

/-- The wallet-set invariant of the specification: the set is empty, or the
default index is a valid index into the wallet sequence. -/
def Wallets.Valid {W : Type} (w : Wallets W) : Prop :=
  w.wallets = [] ∨ (0 ≤ w.defaultWallet ∧ w.defaultWallet < (w.wallets.length : Int))

instance {W : Type} [DecidableEq W] (w : Wallets W) : Decidable w.Valid := by
  unfold Wallets.Valid
  infer_instance

/-- The receiver after a sequence of `SetDefault` calls, failed ones included. -/
def Wallets.setDefaults {W : Type} (w : Wallets W) (indices : List Int) : Wallets W :=
  indices.foldl (fun acc i => (acc.SetDefault i).2) w

/-! ## Contract deployer (`deployer/deployer.go`) -/

/-- A `common.Address`, 20 bytes read as a number; `common.Address{}` is `0`. -/
abbrev Address := Nat

/-- The contract kinds, one per generated binding type
(`*ethereum.LinkToken`, `*ethereum.FluxAggregator`, ...). -/
inductive ContractKind where
  | LinkToken
  | FluxAggregator
  | OffchainAggregator
  | Store
  | VRF
  deriving DecidableEq, Repr

/-- A `*types.Transaction`. -/
structure Transaction where
  hash : Nat
  deriving DecidableEq, Repr

/-- The `interface{}` a constructor binding returns: a bound contract with
its dynamic type. -/
structure Instance where
  kind : ContractKind
  id : Nat
  deriving DecidableEq, Repr

/-- The fields of `bind.TransactOpts` the deployer touches. `GasPrice` holds
the integer the assigned `*big.Int` refers to (`none` for `nil`). -/
structure TransactOpts (W : Type) where
  From : W
  GasPrice : Option Int
  deriving DecidableEq, Repr

/-- The fields of `bindings.FluxAggregatorOptions` passed to the binding. -/
structure FluxAggregatorOptions where
  PaymentAmount : Int
  Timeout : Nat
  Validator : Address
  MinSubValue : Int
  MaxSubValue : Int
  Decimals : Nat
  Description : String
  deriving DecidableEq, Repr

/-- The fields of `bindings.OffchainOptions` passed to the binding. -/
structure OffchainOptions where
  MaximumGasPrice : Nat
  ReasonableGasPrice : Nat
  MicroLinkPerEth : Nat
  LinkGweiPerObservation : Nat
  LinkGweiPerTransmission : Nat
  MinimumAnswer : Int
  MaximumAnswer : Int
  BillingAccessController : Address
  RequesterAccessController : Address
  Decimals : Nat
  Description : String
  deriving DecidableEq, Repr

/-- The fields of `config.NetworkConfig` the deployer reads or writes. -/
structure NetworkConfig where
  ChainID : Int
  LinkTokenAddress : String
  deriving DecidableEq, Repr

/-- What a constructor binding, and the callback around it, returns:
`(common.Address, *types.Transaction, interface{}, error)`. -/
structure Deployment where
  address : Address
  tx : Option Transaction
  contractInstance : Option Instance
  err : Option Error
  deriving DecidableEq, Repr

/-- What `DeployContract` returns:
`(*common.Address, *types.Transaction, interface{}, error)`. -/
structure DeployResult where
  address : Option Address
  tx : Option Transaction
  contractInstance : Option Instance
  err : Option Error
  deriving DecidableEq, Repr

/-- One invocation of a generated constructor binding, with its arguments. -/
inductive BindingCall (W : Type) where
  | DeployLinkToken (auth : TransactOpts W)
  | DeployFluxAggregator (auth : TransactOpts W) (linkAddress : Address)
      (fluxOptions : FluxAggregatorOptions)
  | DeployOffchainAggregator (auth : TransactOpts W) (offchainOptions : OffchainOptions)
      (linkAddress : Address)
  | DeployStore (auth : TransactOpts W)
  | DeployVRF (auth : TransactOpts W)
  deriving DecidableEq, Repr

/-- The mutable state a deployment can touch: the `big.Int` heap, the network
descriptor behind `e.eth.Network.Config()`, and the constructor bindings
invoked so far, oldest first. -/
structure World (W : Type) where
  heap : Heap
  config : NetworkConfig
  calls : List (BindingCall W)
  deriving DecidableEq, Repr

/-- The external collaborators of the deployer: the fee endpoint, the
client library building transaction options and awaiting a transaction, the
generated bindings, and the address conversions of go-ethereum. -/
structure Chain (W : Type) where
  SuggestGasPrice : Except Error Int
  TransactionOpts : W → Except Error (TransactOpts W)
  binding : BindingCall W → Deployment
  waitForTransaction : Option Transaction → Option Error
  HexToAddress : String → Address
  Hex : Address → String

/-- The callback handed to `DeployContract`. -/
abbrev Callback (W : Type) := TransactOpts W → World W → Deployment × World W

/-- The signature of `e.eth.DeployContract` with the world it runs in. -/
abbrev Submit (W : Type) := W → String → Callback W → World W → DeployResult × World W

/-- The shape shared by the five anonymous callbacks: `e.AdjustGasPrice()`,
the early return `common.Address{}, nil, nil, err`, `auth.GasPrice = gasPrice`,
then the constructor binding `call` built from the options and the network
descriptor as they are at that moment. -/
def gasAdjusted {W : Type} (c : Chain W)
    (call : TransactOpts W → NetworkConfig → BindingCall W) : Callback W :=
  fun auth w =>
    match AdjustGasPrice c.SuggestGasPrice w.config.ChainID w.heap with
    | ((_, some err), h) => (⟨0, none, none, some err⟩, ⟨h, w.config, w.calls⟩)
    | ((gasPrice, none), h) =>
      let auth : TransactOpts W := ⟨auth.From, gasPrice.map h.read⟩
      let invoked := call auth w.config
      (c.binding invoked, ⟨h, w.config, w.calls ++ [invoked]⟩)

/-- Callback of `DeployFluxAggregatorContract` (deployer.go 91-111). -/
def fluxAggregatorCallback {W : Type} (c : Chain W) (fluxOptions : FluxAggregatorOptions) :
    Callback W :=
  gasAdjusted c fun auth cfg =>
    .DeployFluxAggregator auth (c.HexToAddress cfg.LinkTokenAddress) fluxOptions

/-- Callback of `DeployLinkTokenContract` (deployer.go 125-135). -/
def linkTokenCallback {W : Type} (c : Chain W) : Callback W :=
  gasAdjusted c fun auth _ => .DeployLinkToken auth

/-- Callback of `DeployOffChainAggregator` (deployer.go 187-211). -/
def offChainAggregatorCallback {W : Type} (c : Chain W) (offchainOptions : OffchainOptions) :
    Callback W :=
  gasAdjusted c fun auth cfg =>
    .DeployOffchainAggregator auth offchainOptions (c.HexToAddress cfg.LinkTokenAddress)

/-- Callback of `DeployStorageContract` (deployer.go 225-235). -/
def storageCallback {W : Type} (c : Chain W) : Callback W :=
  gasAdjusted c fun auth _ => .DeployStore auth

/-- Callback of `DeployVRFContract` (deployer.go 247-257). -/
def vrfCallback {W : Type} (c : Chain W) : Callback W :=
  gasAdjusted c fun auth _ => .DeployVRF auth

/-- The type assertion `instance.(*ethereum.T)`: `none` stands for the
run-time panic on a `nil` interface or another dynamic type. -/
def assertKind (contractInstance : Option Instance) (kind : ContractKind) : Option Instance :=
  match contractInstance with
  | none => none
  | some i => if i.kind = kind then some i else none

/-- The handle structs `EthereumLinkToken`, `EthereumFluxAggregator`,
`EthereumOffchainAggregator`, `EthereumStorage`, `EthereumVRF` as the deployer
fills them: the bound contract, the caller wallet and the address field
(`EthereumStorage` gets none). The `client` field is always `e.eth`. -/
structure Handle (W : Type) where
  kind : ContractKind
  contract : Instance
  callerWallet : W
  address : Option Address
  deriving DecidableEq, Repr

/-- What a deployment operation returns, `(handle, error)`, unless it panics. -/
abbrev Deployed (W : Type) := Go (Option (Handle W) × Option Error)

/-- Modelled from the spec: `EthereumClient.DeployContract` is a method of the
client library the repository imports, and its body is not among the
repository's sources. Following sections 3 and 4.3 of the specification, the
deployment transaction is built from the wallet's transaction options, handed
to the callback once, awaited, and every failure on the way is propagated at
once as `(nil, nil, nil, err)`; on success the result carries the address, the
transaction and the bound contract of the callback. -/
def DeployContract {W : Type} (c : Chain W) : Submit W :=
  fun fromWallet _contractName deployer w =>
    match c.TransactionOpts fromWallet with
    | .error err => (⟨none, none, none, some err⟩, w)
    | .ok opts =>
      let d := deployer opts w
      match d.1.err with
      | some err => (⟨none, none, none, some err⟩, d.2)
      | none =>
        match c.waitForTransaction d.1.tx with
        | some err => (⟨none, none, none, some err⟩, d.2)
        | none => (⟨some d.1.address, d.1.tx, d.1.contractInstance, none⟩, d.2)

/-- `RskContractDeployer.DeployFluxAggregatorContract` (deployer.go 86-121);
`submit` is `e.eth.DeployContract`. -/
def DeployFluxAggregatorContract {W : Type} (c : Chain W) (submit : Submit W) (fromWallet : W)
    (fluxOptions : FluxAggregatorOptions) (w : World W) : Deployed W × World W :=
  let r := submit fromWallet "Flux Aggregator" (fluxAggregatorCallback c fluxOptions) w
  match r.1.err with
  | some err => (.ret (none, some err), r.2)
  | none =>
    match assertKind r.1.contractInstance .FluxAggregator with
    | none => (.panic "interface conversion", r.2)
    | some i => (.ret (some ⟨.FluxAggregator, i, fromWallet, r.1.address⟩, none), r.2)

/-- `RskContractDeployer.DeployLinkTokenContract` (deployer.go 123-147). After a
successful submission the descriptor's `LinkTokenAddress` is set to
`linkTokenAddress.Hex()`, before the handle is built. -/
def DeployLinkTokenContract {W : Type} (c : Chain W) (submit : Submit W) (fromWallet : W)
    (w : World W) : Deployed W × World W :=
  let r := submit fromWallet "LINK Token" (linkTokenCallback c) w
  match r.1.err with
  | some err => (.ret (none, some err), r.2)
  | none =>
    match r.1.address with
    | none => (.panic "nil pointer dereference", r.2)
    | some linkTokenAddress =>
      let w1 : World W := ⟨r.2.heap, ⟨r.2.config.ChainID, c.Hex linkTokenAddress⟩, r.2.calls⟩
      match assertKind r.1.contractInstance .LinkToken with
      | none => (.panic "interface conversion", w1)
      | some i => (.ret (some ⟨.LinkToken, i, fromWallet, some linkTokenAddress⟩, r.1.err), w1)

/-- `RskContractDeployer.DeployOffChainAggregator` (deployer.go 182-221). -/
def DeployOffChainAggregator {W : Type} (c : Chain W) (submit : Submit W) (fromWallet : W)
    (offchainOptions : OffchainOptions) (w : World W) : Deployed W × World W :=
  let r := submit fromWallet "OffChain Aggregator" (offChainAggregatorCallback c offchainOptions) w
  match r.1.err with
  | some err => (.ret (none, some err), r.2)
  | none =>
    match assertKind r.1.contractInstance .OffchainAggregator with
    | none => (.panic "interface conversion", r.2)
    | some i => (.ret (some ⟨.OffchainAggregator, i, fromWallet, r.1.address⟩, r.1.err), r.2)

/-- `RskContractDeployer.DeployStorageContract` (deployer.go 223-244). -/
def DeployStorageContract {W : Type} (c : Chain W) (submit : Submit W) (fromWallet : W)
    (w : World W) : Deployed W × World W :=
  let r := submit fromWallet "Storage" (storageCallback c) w
  match r.1.err with
  | some err => (.ret (none, some err), r.2)
  | none =>
    match assertKind r.1.contractInstance .Store with
    | none => (.panic "interface conversion", r.2)
    | some i => (.ret (some ⟨.Store, i, fromWallet, none⟩, r.1.err), r.2)

/-- `RskContractDeployer.DeployVRFContract` (deployer.go 246-267). -/
def DeployVRFContract {W : Type} (c : Chain W) (submit : Submit W) (fromWallet : W)
    (w : World W) : Deployed W × World W :=
  let r := submit fromWallet "VRF" (vrfCallback c) w
  match r.1.err with
  | some err => (.ret (none, some err), r.2)
  | none =>
    match assertKind r.1.contractInstance .VRF with
    | none => (.panic "interface conversion", r.2)
    | some i => (.ret (some ⟨.VRF, i, fromWallet, r.1.address⟩, r.1.err), r.2)

/-- The five deployment operations with their arguments. -/
inductive DeployOp where
  | LinkToken
  | FluxAggregator (fluxOptions : FluxAggregatorOptions)
  | OffChainAggregator (offchainOptions : OffchainOptions)
  | Storage
  | VRF
  deriving DecidableEq, Repr

/-- The contract name an operation passes to `DeployContract`. -/
def DeployOp.contractName : DeployOp → String
  | .LinkToken => "LINK Token"
  | .FluxAggregator _ => "Flux Aggregator"
  | .OffChainAggregator _ => "OffChain Aggregator"
  | .Storage => "Storage"
  | .VRF => "VRF"

/-- The callback an operation passes to `DeployContract`. -/
def DeployOp.callback {W : Type} (c : Chain W) : DeployOp → Callback W
  | .LinkToken => linkTokenCallback c
  | .FluxAggregator o => fluxAggregatorCallback c o
  | .OffChainAggregator o => offChainAggregatorCallback c o
  | .Storage => storageCallback c
  | .VRF => vrfCallback c

/-- Runs an operation of the deployer. -/
def DeployOp.run {W : Type} (c : Chain W) (submit : Submit W) (fromWallet : W) :
    DeployOp → World W → Deployed W × World W
  | .LinkToken => DeployLinkTokenContract c submit fromWallet
  | .FluxAggregator o => DeployFluxAggregatorContract c submit fromWallet o
  | .OffChainAggregator o => DeployOffChainAggregator c submit fromWallet o
  | .Storage => DeployStorageContract c submit fromWallet
  | .VRF => DeployVRFContract c submit fromWallet

/-- A toy chain for concrete evaluations: wallets are names, every binding
deploys at address 2748 with a contract of the requested kind, and the fee
endpoint and the wait for the transaction answer as given. -/
def sampleChain (gas : Except Error Int) (wait : Option Error) : Chain String where
  SuggestGasPrice := gas
  TransactionOpts := fun fromWallet => .ok ⟨fromWallet, none⟩
  binding := fun call =>
    match call with
    | .DeployLinkToken _ => ⟨2748, some ⟨1⟩, some ⟨.LinkToken, 1⟩, none⟩
    | .DeployFluxAggregator _ _ _ => ⟨2748, some ⟨1⟩, some ⟨.FluxAggregator, 1⟩, none⟩
    | .DeployOffchainAggregator _ _ _ => ⟨2748, some ⟨1⟩, some ⟨.OffchainAggregator, 1⟩, none⟩
    | .DeployStore _ => ⟨2748, some ⟨1⟩, some ⟨.Store, 1⟩, none⟩
    | .DeployVRF _ => ⟨2748, some ⟨1⟩, some ⟨.VRF, 1⟩, none⟩
  waitForTransaction := fun _ => wait
  HexToAddress := fun s => s.length
  Hex := fun a => String.mk ('0' :: 'x' :: Nat.toDigits 16 a)

/-- A world before any deployment, on chain 31 with no token address yet. -/
def sampleWorld : World String := ⟨Heap.empty, ⟨31, ""⟩, []⟩

/-! ## Gas-price adjustment -/

/-- With an answer from the fee endpoint, none of the three pointer
comparisons can succeed: the result is the pointer of the suggested price. -/
theorem AdjustGasPrice_ok (p c : Int) (h : Heap) :
    AdjustGasPrice (.ok p) c h =
      ((some h.cells.length, none), ⟨h.cells ++ [p] ++ [c] ++ [30] ++ [31] ++ [33]⟩) := by
  simp [AdjustGasPrice, Heap.NewInt]

/-- Whatever the configured chain ID, the returned price is the suggested one. -/
theorem adjustedPrice_ok (p c : Int) (h : Heap) :
    adjustedPrice (.ok p) c h = (some p, none) := by
  simp only [adjustedPrice, AdjustGasPrice_ok, Heap.read, Option.map_some']
  simp only [List.append_assoc, List.singleton_append, List.getD_eq_getElem?_getD]
  rw [List.getElem?_append_right (le_refl _)]
  simp

/-- A failed fetch is returned as it is, with no price and no allocation. -/
theorem AdjustGasPrice_error (err : Error) (c : Int) (h : Heap) :
    AdjustGasPrice (.error err) c h = ((none, some err), h) := rfl

theorem getElem_append_add (l r : List Int) (k : Nat) (h : k < r.length)
    (h2 : l.length + k < (l ++ r).length) : (l ++ r)[l.length + k] = r[k] := by
  rw [List.getElem_append_right (Nat.le_add_right _ _)]
  simp

theorem getElem_append_length (l r : List Int) (h : 0 < r.length)
    (h2 : l.length < (l ++ r).length) : (l ++ r)[l.length] = r[0] := by
  rw [List.getElem_append_right (le_refl _)]
  simp

/-- The slow-finality branch, had it been entered, computes the markup of
the specification: the suggested price plus the floor of 2 percent of it. -/
theorem markupBranch_value (p : Int) (cells : List Int) :
    (markupBranch cells.length ⟨cells ++ [p]⟩).2.read (markupBranch cells.length ⟨cells ++ [p]⟩).1
      = p + Int.ediv (p * 2) 100 := by
  simp [markupBranch, Heap.NewInt, Heap.write, Heap.read, List.getD_eq_getElem?_getD,
    List.getElem?_append, List.getElem?_set, List.set_append, getElem_append_add,
    getElem_append_length]

/-- C1 (the code departs from the claim): on chain 31 with a suggested price of
1,000,000,000 `AdjustGasPrice` returns 1,000,000,000 and not 1,020,000,000,
and on each of the chains 30, 31 and 33 it returns every suggested price as
it is, because the chain ID is compared with new integers by pointer. -/
theorem AdjustGasPrice_slow_finality_no_markup :
    adjustedPrice (.ok 1000000000) 31 Heap.empty = (some 1000000000, none) ∧
    adjustedPrice (.ok 1000000000) 31 Heap.empty
      ≠ (some (1000000000 + Int.ediv (1000000000 * 2) 100), none) ∧
    ∀ (p : Int) (h : Heap),
      adjustedPrice (.ok p) 30 h = (some p, none) ∧
      adjustedPrice (.ok p) 31 h = (some p, none) ∧
      adjustedPrice (.ok p) 33 h = (some p, none) := by
  refine ⟨by decide, by decide, fun p h => ?_⟩
  exact ⟨adjustedPrice_ok p 30 h, adjustedPrice_ok p 31 h, adjustedPrice_ok p 33 h⟩

/-- C2: for a suggested price `p` returned by the fee endpoint and a configured
chain ID other than 30, 31 and 33, `AdjustGasPrice` returns no error and the
very pointer of the suggested price, whose value is `p`. -/
theorem AdjustGasPrice_other_chain_unchanged (p c : Int) (h : Heap)
    (hc : c ≠ 30 ∧ c ≠ 31 ∧ c ≠ 33) :
    (AdjustGasPrice (.ok p) c h).1 = (some (h.NewInt p).1, none) ∧
    adjustedPrice (.ok p) c h = (some p, none) := by
  have _ := hc
  exact ⟨by simp [AdjustGasPrice_ok, Heap.NewInt], adjustedPrice_ok p c h⟩

/-- C2 at chain ID 1 with suggested price 100 on the empty heap. -/
theorem AdjustGasPrice_other_chain_unchanged_witness :
    ((1 : Int) ≠ 30 ∧ (1 : Int) ≠ 31 ∧ (1 : Int) ≠ 33) ∧
    (AdjustGasPrice (.ok 100) 1 Heap.empty).1 = (some (Heap.empty.NewInt 100).1, none) ∧
    adjustedPrice (.ok 100) 1 Heap.empty = (some 100, none) :=
  ⟨by decide, AdjustGasPrice_other_chain_unchanged 100 1 Heap.empty (by decide)⟩

/-! ## Wallet sets -/

theorem walletSliceIndexInRange_above {W : Type} (ws : List W) (i : Int)
    (h : (ws.length : Int) ≤ i) :
    walletSliceIndexInRange ws i = some "invalid index in list of wallets" := by
  unfold walletSliceIndexInRange
  rw [if_pos (by omega)]

theorem walletSliceIndexInRange_below {W : Type} (ws : List W) (i : Int)
    (h : i < (ws.length : Int)) :
    walletSliceIndexInRange ws i = none := by
  unfold walletSliceIndexInRange
  rw [if_neg (by omega)]

theorem sliceIndex_valid {W : Type} (ws : List W) (i : Int) (h0 : 0 ≤ i)
    (hlt : i < (ws.length : Int)) :
    ∃ hi : i.toNat < ws.length, sliceIndex ws i = .ret (ws.get ⟨i.toNat, hi⟩) := by
  have hi : i.toNat < ws.length := by omega
  refine ⟨hi, ?_⟩
  unfold sliceIndex
  rw [if_neg (by omega), List.get?_eq_get hi]

theorem sliceIndex_negative {W : Type} (ws : List W) (i : Int) (h : i < 0) :
    sliceIndex ws i = .panic "index out of range" := by
  unfold sliceIndex
  rw [if_pos h]

/-- A negative index passes the range check of `Wallet` and panics in the
slice indexing. -/
theorem Wallet_negative {W : Type} (w : Wallets W) (i : Int) (h : i < 0) :
    w.Wallet i = .panic "index out of range" := by
  unfold Wallets.Wallet
  rw [walletSliceIndexInRange_below w.wallets i (by omega)]
  simp only [sliceIndex_negative w.wallets i h]

/-- A negative index is accepted by `SetDefault` and becomes the default. -/
theorem SetDefault_negative {W : Type} (w : Wallets W) (i : Int) (h : i < 0) :
    w.SetDefault i = (none, ⟨i, w.wallets⟩) := by
  unfold Wallets.SetDefault
  rw [walletSliceIndexInRange_below w.wallets i (by omega)]

/-- An index at or above the length is rejected by `SetDefault`, which leaves
the set as it was. -/
theorem SetDefault_above {W : Type} (w : Wallets W) (i : Int)
    (h : (w.wallets.length : Int) ≤ i) :
    w.SetDefault i = (some "invalid index in list of wallets", w) := by
  unfold Wallets.SetDefault
  rw [walletSliceIndexInRange_above w.wallets i h]

/-- C3: for `0 <= i <= len(w.wallets)-1`, `Wallet(i)` returns the wallet at
position `i` and no error; for `i >= len(w.wallets)` it returns an error and
no wallet. -/
theorem Wallet_in_range_and_above {W : Type} (w : Wallets W) (i : Int) :
    (0 ≤ i → i ≤ (w.wallets.length : Int) - 1 →
      ∃ hi : i.toNat < w.wallets.length,
        w.Wallet i = .ret (some (w.wallets.get ⟨i.toNat, hi⟩), none)) ∧
    ((w.wallets.length : Int) ≤ i →
      w.Wallet i = .ret (none, some "invalid index in list of wallets")) := by
  constructor
  · intro h0 h1
    obtain ⟨hi, hs⟩ := sliceIndex_valid w.wallets i h0 (by omega)
    refine ⟨hi, ?_⟩
    unfold Wallets.Wallet
    rw [walletSliceIndexInRange_below w.wallets i (by omega)]
    simp only [hs]
  · intro h
    unfold Wallets.Wallet
    rw [walletSliceIndexInRange_above w.wallets i h]

/-- C3 on a set of three wallets: index 2 gives the third wallet, and the
indices 3 (the length) and 8 (the length plus 5) give the error. -/
theorem Wallet_in_range_and_above_witness :
    ((0 : Int) ≤ 2 ∧ (2 : Int) ≤ ((["a", "b", "c"] : List String).length : Int) - 1) ∧
    (Wallets.mk 0 ["a", "b", "c"]).Wallet 2 = .ret (some "c", none) ∧
    (Wallets.mk 0 ["a", "b", "c"]).Wallet 3
      = .ret (none, some "invalid index in list of wallets") ∧
    (Wallets.mk 0 ["a", "b", "c"]).Wallet 8
      = .ret (none, some "invalid index in list of wallets") := by
  refine ⟨by decide, ?_, ?_, ?_⟩
  · obtain ⟨_, h⟩ :=
      (Wallet_in_range_and_above (Wallets.mk 0 ["a", "b", "c"]) 2).1 (by decide) (by decide)
    exact h
  · exact (Wallet_in_range_and_above (Wallets.mk 0 ["a", "b", "c"]) 3).2 (by decide)
  · exact (Wallet_in_range_and_above (Wallets.mk 0 ["a", "b", "c"]) 8).2 (by decide)

/-- C4 (the code departs from the claim): on a set of two wallets `Wallet(-1)`
passes the range check, reaches the slice indexing and panics; it returns
no error value. The same holds on the empty set. -/
theorem Wallet_minus_one_panics :
    walletSliceIndexInRange ["a", "b"] (-1) = none ∧
    (Wallets.mk 0 ["a", "b"]).Wallet (-1) = .panic "index out of range" ∧
    (Wallets.mk 0 ([] : List String)).Wallet (-1) = .panic "index out of range" := by
  decide

/-- C5 (the code departs from the claim): on a set of two wallets with default
index 0, `SetDefault(-1)` returns no error and stores -1 as the default
index, after which `Default()` panics instead of returning the first wallet. -/
theorem SetDefault_minus_one_accepted :
    (Wallets.mk 0 ["a", "b"]).Default = .ret "a" ∧
    (Wallets.mk 0 ["a", "b"]).SetDefault (-1) = (none, ⟨-1, ["a", "b"]⟩) ∧
    ((Wallets.mk 0 ["a", "b"]).SetDefault (-1)).2.Default = .panic "index out of range" := by
  decide

/-- C6: for a valid index `i`, `SetDefault(i)` returns no error, keeps the
wallet sequence, and a following `Default()` returns the wallet at position
`i`, the one `Wallet(i)` returns. -/
theorem SetDefault_valid_then_Default {W : Type} (w : Wallets W) (i : Int) (h0 : 0 ≤ i)
    (hlt : i < (w.wallets.length : Int)) :
    (w.SetDefault i).1 = none ∧
    (w.SetDefault i).2.wallets = w.wallets ∧
    ∃ hi : i.toNat < w.wallets.length,
      (w.SetDefault i).2.Default = .ret (w.wallets.get ⟨i.toNat, hi⟩) ∧
      w.Wallet i = .ret (some (w.wallets.get ⟨i.toNat, hi⟩), none) := by
  obtain ⟨hi, hs⟩ := sliceIndex_valid w.wallets i h0 hlt
  have hset : w.SetDefault i = (none, ⟨i, w.wallets⟩) := by
    unfold Wallets.SetDefault
    rw [walletSliceIndexInRange_below w.wallets i hlt]
  refine ⟨by rw [hset], by rw [hset], hi, ?_, ?_⟩
  · rw [hset]
    exact hs
  · unfold Wallets.Wallet
    rw [walletSliceIndexInRange_below w.wallets i hlt]
    simp only [hs]

/-- C6 on a set of three wallets with default 0 and index 2. -/
theorem SetDefault_valid_then_Default_witness :
    ((0 : Int) ≤ 2 ∧ (2 : Int) < ((["a", "b", "c"] : List String).length : Int)) ∧
    ((Wallets.mk 0 ["a", "b", "c"]).SetDefault 2).1 = none ∧
    ((Wallets.mk 0 ["a", "b", "c"]).SetDefault 2).2.wallets = ["a", "b", "c"] ∧
    ((Wallets.mk 0 ["a", "b", "c"]).SetDefault 2).2.Default = .ret "c" ∧
    (Wallets.mk 0 ["a", "b", "c"]).Wallet 2 = .ret (some "c", none) := by
  obtain ⟨h1, h2, _, h3, h4⟩ :=
    SetDefault_valid_then_Default (Wallets.mk 0 ["a", "b", "c"]) 2 (by decide) (by decide)
  exact ⟨by decide, h1, h2, h3, h4⟩

/-- With indices that are not negative, `SetDefault` keeps the invariant. -/
theorem SetDefault_keeps_Valid {W : Type} (w : Wallets W) (i : Int) (h0 : 0 ≤ i)
    (hv : w.Valid) : (w.SetDefault i).2.Valid := by
  by_cases hlt : i < (w.wallets.length : Int)
  · have hset : w.SetDefault i = (none, ⟨i, w.wallets⟩) := by
      unfold Wallets.SetDefault
      rw [walletSliceIndexInRange_below w.wallets i hlt]
    rw [hset]
    exact Or.inr ⟨h0, hlt⟩
  · rw [SetDefault_above w i (by omega)]
    exact hv

/-- C7 (the code departs from the claim): the set built from two well-formed
keys satisfies the invariant, and after the single call `SetDefault(-1)`,
which returns no error, it has two wallets and default index -1: the
invariant is broken and `Default()` panics. -/
theorem default_index_invariant_broken :
    newEthereumWallets sampleDecode (.ok ["k1", "k2"]) = (some ⟨0, ["k1", "k2"]⟩, none) ∧
    (Wallets.mk 0 ["k1", "k2"]).Valid ∧
    ((Wallets.mk 0 ["k1", "k2"]).SetDefault (-1)).1 = none ∧
    (Wallets.mk 0 ["k1", "k2"]).setDefaults [-1] = ⟨-1, ["k1", "k2"]⟩ ∧
    ¬ ((Wallets.mk 0 ["k1", "k2"]).setDefaults [-1]).Valid ∧
    ((Wallets.mk 0 ["k1", "k2"]).setDefaults [-1]).Default = .panic "index out of range" := by
  decide

/-! ## Building a wallet set -/

theorem dropWhile_append_all {α : Type} (p : α → Bool) (pre l : List α)
    (h : ∀ a ∈ pre, p a = true) : (pre ++ l).dropWhile p = l.dropWhile p := by
  induction pre with
  | nil => rfl
  | cons a pre ih =>
    have ha : p a = true := h a (List.mem_cons_self a pre)
    have hrest : ∀ b ∈ pre, p b = true := fun b hb => h b (List.mem_cons_of_mem a hb)
    simp [List.dropWhile_cons, ha, ih hrest]

theorem rdropWhile_append_all {α : Type} (p : α → Bool) (l post : List α)
    (h : ∀ a ∈ post, p a = true) : (l ++ post).rdropWhile p = l.rdropWhile p := by
  unfold List.rdropWhile
  rw [List.reverse_append, dropWhile_append_all p post.reverse l.reverse]
  intro a ha
  exact h a (List.mem_reverse.mp ha)

theorem trim_append_all {α : Type} (p : α → Bool) (l post : List α)
    (h : ∀ a ∈ post, p a = true) :
    ((l ++ post).dropWhile p).rdropWhile p = (l.dropWhile p).rdropWhile p := by
  induction l with
  | nil =>
    have hnil : post.dropWhile p = [] := by
      have := dropWhile_append_all p post [] h
      simpa using this
    simp [hnil]
  | cons a l ih =>
    by_cases ha : p a = true
    · simpa [List.dropWhile_cons, ha] using ih
    · have hstep : ((a :: l) ++ post).dropWhile p = (a :: l) ++ post := by
        simp [List.dropWhile_cons, ha]
      have hstep2 : (a :: l).dropWhile p = a :: l := by
        simp [List.dropWhile_cons, ha]
      rw [hstep, hstep2]
      exact rdropWhile_append_all p (a :: l) post h

/-- White space around a key does not change what `TrimSpace` returns. -/
theorem TrimSpace_padded (pre key post : String)
    (hpre : ∀ ch ∈ pre.data, IsSpace ch = true) (hpost : ∀ ch ∈ post.data, IsSpace ch = true) :
    TrimSpace (pre ++ key ++ post) = TrimSpace key := by
  unfold TrimSpace
  congr 1
  rw [String.data_append, String.data_append, List.append_assoc,
    dropWhile_append_all IsSpace pre.data _ hpre]
  exact trim_append_all IsSpace key.data post.data hpost

theorem loop_all_decoded {W : Type} (dec : String → Except Error W) (keys : List String) :
    ∀ (processed ws : List W), keys.map (fun k => dec (TrimSpace k)) = ws.map Except.ok →
      newEthereumWallets.loop dec keys processed = (some ⟨0, processed ++ ws⟩, none) := by
  induction keys with
  | nil =>
    intro processed ws h
    cases ws with
    | nil => simp [newEthereumWallets.loop]
    | cons x ws => simp at h
  | cons key rest ih =>
    intro processed ws h
    cases ws with
    | nil => simp at h
    | cons x ws =>
      simp only [List.map_cons, List.cons.injEq] at h
      unfold newEthereumWallets.loop
      rw [h.1]
      simp only
      rw [ih (processed ++ [x]) ws h.2]
      simp

theorem exists_decoded {W : Type} (dec : String → Except Error W) (keys : List String)
    (h : ∀ k ∈ keys, ∃ x, dec (TrimSpace k) = .ok x) :
    ∃ ws : List W, keys.map (fun k => dec (TrimSpace k)) = ws.map Except.ok := by
  induction keys with
  | nil => exact ⟨[], rfl⟩
  | cons key rest ih =>
    obtain ⟨x, hx⟩ := h key (List.mem_cons_self key rest)
    obtain ⟨ws, hws⟩ := ih (fun k hk => h k (List.mem_cons_of_mem key hk))
    exact ⟨x :: ws, by simp [hx, hws]⟩

theorem loop_malformed {W : Type} (dec : String → Except Error W) (keys : List String) :
    ∀ (processed : List W), (∃ k ∈ keys, ∃ e, dec (TrimSpace k) = .error e) →
      ∃ e, newEthereumWallets.loop dec keys processed = (some ⟨0, []⟩, some e) ∧
        ∃ k ∈ keys, dec (TrimSpace k) = .error e := by
  induction keys with
  | nil =>
    intro processed h
    obtain ⟨k, hk, _⟩ := h
    cases hk
  | cons key rest ih =>
    intro processed h
    unfold newEthereumWallets.loop
    cases hd : dec (TrimSpace key) with
    | error e =>
      exact ⟨e, rfl, key, List.mem_cons_self key rest, hd⟩
    | ok x =>
      have hrest : ∃ k ∈ rest, ∃ e, dec (TrimSpace k) = .error e := by
        obtain ⟨k, hk, e, he⟩ := h
        rcases List.mem_cons.mp hk with hkey | hmem
        · rw [hkey, hd] at he
          cases he
        · exact ⟨k, hmem, e, he⟩
      obtain ⟨e, hloop, k, hk, he⟩ := ih (processed ++ [x]) hrest
      exact ⟨e, hloop, k, List.mem_cons_of_mem key hk, he⟩

/-- C8: when at least one key of the list fails to decode after trimming,
`newEthereumWallets` returns the error of a malformed key together with the
empty set `&Wallets{}`: none of the wallets decoded before is in it,
wherever the malformed key stands. -/
theorem newEthereumWallets_malformed_key {W : Type} (dec : String → Except Error W)
    (keys : List String) (h : ∃ k ∈ keys, ∃ e, dec (TrimSpace k) = .error e) :
    ∃ e, newEthereumWallets dec (.ok keys) = (some ⟨0, []⟩, some e) ∧
      ∃ k ∈ keys, dec (TrimSpace k) = .error e :=
  loop_malformed dec keys [] h

/-- C8 on three keys of which the last one is blank. -/
theorem newEthereumWallets_malformed_key_witness :
    (∃ k ∈ ["k1", " k2", "  "], ∃ e, sampleDecode (TrimSpace k) = .error e) ∧
    ∃ e, newEthereumWallets sampleDecode (.ok ["k1", " k2", "  "]) = (some ⟨0, []⟩, some e) ∧
      ∃ k ∈ ["k1", " k2", "  "], sampleDecode (TrimSpace k) = .error e :=
  have hbad : ∃ k ∈ ["k1", " k2", "  "], ∃ e, sampleDecode (TrimSpace k) = .error e :=
    ⟨"  ", by decide, "invalid key", by unfold sampleDecode; rw [if_pos (by decide)]⟩
  ⟨hbad, newEthereumWallets_malformed_key sampleDecode ["k1", " k2", "  "] hbad⟩

/-- C9: when the key list is fetched and every key decodes after trimming,
`newEthereumWallets` returns no error and a set with default index 0 whose
wallets are, in order, the decodings of the trimmed keys; white space added
around a key gives the same wallet; and `Default()` on a result that is not
empty is the wallet of the first key. -/
theorem newEthereumWallets_all_keys_decoded {W : Type} (dec : String → Except Error W)
    (keys : List String) (h : ∀ k ∈ keys, ∃ x, dec (TrimSpace k) = .ok x) :
    ∃ ws : List W,
      newEthereumWallets dec (.ok keys) = (some ⟨0, ws⟩, none) ∧
      ws.length = keys.length ∧
      keys.map (fun k => dec (TrimSpace k)) = ws.map Except.ok ∧
      (∀ (n : Nat) (k pre post : String), keys[n]? = some k →
        (∀ ch ∈ pre.data, IsSpace ch = true) → (∀ ch ∈ post.data, IsSpace ch = true) →
        ∃ x, ws[n]? = some x ∧ dec (TrimSpace k) = .ok x ∧
          dec (TrimSpace (pre ++ k ++ post)) = .ok x) ∧
      (ws ≠ [] → ∃ k x, keys[0]? = some k ∧ dec (TrimSpace k) = .ok x ∧
        (Wallets.mk 0 ws).Default = .ret x) := by
  obtain ⟨ws, hws⟩ := exists_decoded dec keys h
  have hlen : ws.length = keys.length := by
    have := congrArg List.length hws
    simpa using this.symm
  have hnth : ∀ (n : Nat) (k : String), keys[n]? = some k →
      ∃ x, ws[n]? = some x ∧ dec (TrimSpace k) = .ok x := by
    intro n k hk
    have hn := congrArg (fun l => l[n]?) hws
    simp only [List.getElem?_map, hk, Option.map_some'] at hn
    cases hx : ws[n]? with
    | none => simp [hx] at hn
    | some x =>
      simp only [hx, Option.map_some', Option.some.injEq] at hn
      exact ⟨x, rfl, hn⟩
  refine ⟨ws, ?_, hlen, hws, ?_, ?_⟩
  · have := loop_all_decoded dec keys [] ws hws
    simpa [newEthereumWallets] using this
  · intro n k pre post hk hpre hpost
    obtain ⟨x, hx, hd⟩ := hnth n k hk
    exact ⟨x, hx, hd, by rw [TrimSpace_padded pre k post hpre hpost]; exact hd⟩
  · intro hne
    cases hkeys : keys with
    | nil =>
      rw [hkeys] at hlen
      exact absurd (List.length_eq_zero.mp hlen) hne
    | cons k rest =>
      have hk : keys[0]? = some k := by rw [hkeys]; simp
      obtain ⟨x, hx, hd⟩ := hnth 0 k hk
      rw [hkeys] at hk
      refine ⟨k, x, hk, hd, ?_⟩
      simp only [Wallets.Default, sliceIndex]
      rw [if_neg (by decide)]
      have hget : ws.get? (0 : Int).toNat = some x := by
        rw [List.get?_eq_getElem?]
        exact hx
      rw [hget]

/-- C9 on two keys, the first one padded with blanks. -/
theorem newEthereumWallets_all_keys_decoded_witness :
    (∀ k ∈ [" k1 ", "k2"], ∃ x, sampleDecode (TrimSpace k) = .ok x) ∧
    ∃ ws : List String,
      newEthereumWallets sampleDecode (.ok [" k1 ", "k2"]) = (some ⟨0, ws⟩, none) ∧
      ws.length = 2 ∧
      [" k1 ", "k2"].map (fun k => sampleDecode (TrimSpace k)) = ws.map Except.ok := by
  have hall : ∀ k ∈ [" k1 ", "k2"], ∃ x, sampleDecode (TrimSpace k) = .ok x := by
    intro k hk
    simp only [List.mem_cons, List.mem_singleton, List.not_mem_nil, or_false] at hk
    rcases hk with hk | hk
    · exact ⟨"k1", by rw [hk]; unfold sampleDecode; rw [if_neg (by decide)]; rfl⟩
    · exact ⟨"k2", by rw [hk]; unfold sampleDecode; rw [if_neg (by decide)]; rfl⟩
  obtain ⟨ws, h1, h2, h3, _⟩ :=
    newEthereumWallets_all_keys_decoded sampleDecode [" k1 ", "k2"] hall
  exact ⟨hall, ws, h1, h2, h3⟩

/-! ## Failed deployments -/

/-- After a failed gas-price fetch the callback returns
`common.Address{}, nil, nil, err` and nothing has changed: no binding was
invoked. -/
theorem gasAdjusted_fetch_failed {W : Type} (c : Chain W)
    (call : TransactOpts W → NetworkConfig → BindingCall W) (auth : TransactOpts W)
    (w : World W) (err : Error) (h : c.SuggestGasPrice = .error err) :
    gasAdjusted c call auth w = (⟨0, none, none, some err⟩, w) := by
  unfold gasAdjusted
  rw [h, AdjustGasPrice_error]

/-- The callback never writes the network descriptor. -/
theorem gasAdjusted_config {W : Type} (c : Chain W)
    (call : TransactOpts W → NetworkConfig → BindingCall W) (auth : TransactOpts W)
    (w : World W) : (gasAdjusted c call auth w).2.config = w.config := by
  unfold gasAdjusted
  split <;> rfl

theorem callback_fetch_failed {W : Type} (c : Chain W) (op : DeployOp) (auth : TransactOpts W)
    (w : World W) (err : Error) (h : c.SuggestGasPrice = .error err) :
    op.callback c auth w = (⟨0, none, none, some err⟩, w) := by
  cases op <;>
    simp only [DeployOp.callback, linkTokenCallback, fluxAggregatorCallback,
      offChainAggregatorCallback, storageCallback, vrfCallback] <;>
    exact gasAdjusted_fetch_failed c _ auth w err h

theorem callback_config {W : Type} (c : Chain W) (op : DeployOp) (auth : TransactOpts W)
    (w : World W) : (op.callback c auth w).2.config = w.config := by
  cases op <;>
    simp only [DeployOp.callback, linkTokenCallback, fluxAggregatorCallback,
      offChainAggregatorCallback, storageCallback, vrfCallback] <;>
    exact gasAdjusted_config c _ auth w

/-- The modelled `DeployContract` changes the network descriptor no more than
its callback does. -/
theorem DeployContract_config {W : Type} (c : Chain W) (fromWallet : W) (name : String)
    (op : DeployOp) (w : World W) :
    (DeployContract c fromWallet name (op.callback c) w).2.config = w.config := by
  unfold DeployContract
  cases c.TransactionOpts fromWallet with
  | error e => rfl
  | ok opts =>
    have hc := callback_config c op opts w
    simp only
    split
    · exact hc
    · split <;> exact hc

/-- Every operation hands the error of `DeployContract` back with a `nil`
handle and does nothing more. -/
theorem run_submit_failed {W : Type} (c : Chain W) (submit : Submit W) (fromWallet : W)
    (op : DeployOp) (w : World W) (err : Error)
    (h : (submit fromWallet op.contractName (op.callback c) w).1.err = some err) :
    op.run c submit fromWallet w
      = (.ret (none, some err), (submit fromWallet op.contractName (op.callback c) w).2) := by
  cases op <;>
    simp only [DeployOp.run, DeployOp.contractName, DeployOp.callback, DeployLinkTokenContract,
      DeployFluxAggregatorContract, DeployOffChainAggregator, DeployStorageContract,
      DeployVRFContract] at h ⊢ <;>
    rw [h]

/-- C10: for each of the five deployment operations, (1) after a failed
gas-price fetch the callback returns the error without invoking the
constructor binding or changing anything, and the operation returns that
error with a `nil` handle in an unchanged world; (2) whenever `DeployContract`
returns an error, the operation returns that error with a `nil` handle and
does nothing after the submission; (3) with `DeployContract` as the
specification describes it, the network descriptor after such a failure is
the one before the call, `LinkTokenAddress` included. -/
theorem deploy_failure_no_handle_no_backfill {W : Type} (c : Chain W) (fromWallet : W)
    (op : DeployOp) (w : World W) :
    (∀ err, c.SuggestGasPrice = .error err →
      (∀ auth, op.callback c auth w = (⟨0, none, none, some err⟩, w)) ∧
      (∀ opts, c.TransactionOpts fromWallet = .ok opts →
        op.run c (DeployContract c) fromWallet w = (.ret (none, some err), w))) ∧
    (∀ (submit : Submit W) (err : Error),
      (submit fromWallet op.contractName (op.callback c) w).1.err = some err →
      op.run c submit fromWallet w
        = (.ret (none, some err), (submit fromWallet op.contractName (op.callback c) w).2)) ∧
    (∀ err, (DeployContract c fromWallet op.contractName (op.callback c) w).1.err = some err →
      (op.run c (DeployContract c) fromWallet w).1 = .ret (none, some err) ∧
      (op.run c (DeployContract c) fromWallet w).2.config.LinkTokenAddress
        = w.config.LinkTokenAddress) := by
  refine ⟨fun err herr => ⟨fun auth => callback_fetch_failed c op auth w err herr, ?_⟩,
    fun submit err h => run_submit_failed c submit fromWallet op w err h, ?_⟩
  · intro opts hopts
    have hsub : DeployContract c fromWallet op.contractName (op.callback c) w
        = (⟨none, none, none, some err⟩, w) := by
      unfold DeployContract
      simp only [hopts, callback_fetch_failed c op opts w err herr]
    rw [run_submit_failed c (DeployContract c) fromWallet op w err (by rw [hsub]), hsub]
  · intro err h
    rw [run_submit_failed c (DeployContract c) fromWallet op w err h]
    exact ⟨rfl, by rw [DeployContract_config]⟩

/-- C10 on the toy chain: the token deployment with a failing fee endpoint,
and the storage deployment whose transaction is never confirmed. -/
theorem deploy_failure_no_handle_no_backfill_witness :
    ((sampleChain (.error "rpc down") none).SuggestGasPrice = .error "rpc down" ∧
      (sampleChain (.error "rpc down") none).TransactionOpts "alice" = .ok ⟨"alice", none⟩) ∧
    DeployOp.LinkToken.run (sampleChain (.error "rpc down") none)
        (DeployContract (sampleChain (.error "rpc down") none)) "alice" sampleWorld
      = (.ret (none, some "rpc down"), sampleWorld) ∧
    (DeployContract (sampleChain (.ok 5) (some "timeout")) "alice" DeployOp.Storage.contractName
        (DeployOp.Storage.callback (sampleChain (.ok 5) (some "timeout"))) sampleWorld).1.err
      = some "timeout" ∧
    (DeployOp.Storage.run (sampleChain (.ok 5) (some "timeout"))
        (DeployContract (sampleChain (.ok 5) (some "timeout"))) "alice" sampleWorld).1
      = .ret (none, some "timeout") ∧
    (DeployOp.Storage.run (sampleChain (.ok 5) (some "timeout"))
        (DeployContract (sampleChain (.ok 5) (some "timeout"))) "alice"
        sampleWorld).2.config.LinkTokenAddress = sampleWorld.config.LinkTokenAddress := by
  have h1 := ((deploy_failure_no_handle_no_backfill (sampleChain (.error "rpc down") none)
    "alice" DeployOp.LinkToken sampleWorld).1 "rpc down" rfl).2 ⟨"alice", none⟩ rfl
  have h2 := (deploy_failure_no_handle_no_backfill (sampleChain (.ok 5) (some "timeout"))
    "alice" DeployOp.Storage sampleWorld).2.2 "timeout" (by decide)
  exact ⟨⟨rfl, rfl⟩, h1, by decide, h2.1, h2.2⟩

/-! ## Successful deployments -/

/-- The four operations other than the token deployment leave the world as
`DeployContract` returned it, whatever the outcome. -/
theorem run_world_of_submit {W : Type} (c : Chain W) (submit : Submit W) (fromWallet : W)
    (op : DeployOp) (w : World W) (hop : op ≠ .LinkToken) :
    (op.run c submit fromWallet w).2
      = (submit fromWallet op.contractName (op.callback c) w).2 := by
  cases op with
  | LinkToken => exact absurd rfl hop
  | FluxAggregator o =>
    simp only [DeployOp.run, DeployOp.contractName, DeployOp.callback,
      DeployFluxAggregatorContract]
    split
    · rfl
    · split <;> rfl
  | OffChainAggregator o =>
    simp only [DeployOp.run, DeployOp.contractName, DeployOp.callback, DeployOffChainAggregator]
    split
    · rfl
    · split <;> rfl
  | Storage =>
    simp only [DeployOp.run, DeployOp.contractName, DeployOp.callback, DeployStorageContract]
    split
    · rfl
    · split <;> rfl
  | VRF =>
    simp only [DeployOp.run, DeployOp.contractName, DeployOp.callback, DeployVRFContract]
    split
    · rfl
    · split <;> rfl

/-- After a submission without error that carries an address and a token
contract, `DeployLinkTokenContract` writes the hex form of the address into
the descriptor and returns the handle with that address. -/
theorem DeployLinkTokenContract_submitted {W : Type} (c : Chain W) (submit : Submit W)
    (fromWallet : W) (w : World W) (a : Address) (i : Instance)
    (herr : (submit fromWallet "LINK Token" (linkTokenCallback c) w).1.err = none)
    (haddr : (submit fromWallet "LINK Token" (linkTokenCallback c) w).1.address = some a)
    (hinst : assertKind (submit fromWallet "LINK Token" (linkTokenCallback c) w).1.contractInstance
      .LinkToken = some i) :
    DeployLinkTokenContract c submit fromWallet w
      = (.ret (some ⟨.LinkToken, i, fromWallet, some a⟩, none),
          ⟨(submit fromWallet "LINK Token" (linkTokenCallback c) w).2.heap,
            ⟨(submit fromWallet "LINK Token" (linkTokenCallback c) w).2.config.ChainID, c.Hex a⟩,
            (submit fromWallet "LINK Token" (linkTokenCallback c) w).2.calls⟩) := by
  unfold DeployLinkTokenContract
  simp only [herr, haddr, hinst]

/-- A handle returned by `DeployLinkTokenContract` carries the address of the
submission, and the descriptor holds its hex form. -/
theorem DeployLinkTokenContract_returned {W : Type} (c : Chain W) (submit : Submit W)
    (fromWallet : W) (w : World W) (h : Handle W) (e : Option Error)
    (hret : (DeployLinkTokenContract c submit fromWallet w).1 = .ret (some h, e)) :
    ∃ a, (submit fromWallet "LINK Token" (linkTokenCallback c) w).1.address = some a ∧
      (submit fromWallet "LINK Token" (linkTokenCallback c) w).1.err = none ∧
      e = none ∧ h.address = some a ∧ h.callerWallet = fromWallet ∧
      (DeployLinkTokenContract c submit fromWallet w).2.config.LinkTokenAddress = c.Hex a := by
  unfold DeployLinkTokenContract at hret ⊢
  cases herr : (submit fromWallet "LINK Token" (linkTokenCallback c) w).1.err with
  | some err => simp [herr] at hret
  | none =>
    cases haddr : (submit fromWallet "LINK Token" (linkTokenCallback c) w).1.address with
    | none => simp [herr, haddr] at hret
    | some a =>
      cases hinst : assertKind
          (submit fromWallet "LINK Token" (linkTokenCallback c) w).1.contractInstance
          .LinkToken with
      | none => simp [herr, haddr, hinst] at hret
      | some i =>
        simp only [herr, haddr, hinst, Go.ret.injEq, Prod.mk.injEq, Option.some.injEq] at hret
        refine ⟨a, rfl, rfl, hret.2.symm, ?_, ?_, ?_⟩
        · rw [← hret.1]
        · rw [← hret.1]
        · simp only [herr, haddr, hinst]

/-- With an answer `p` of the fee endpoint the callback sets `auth.GasPrice`
to the price `AdjustGasPrice` returns, which is `p`, invokes the binding once
and leaves the network descriptor alone. -/
theorem gasAdjusted_ok {W : Type} (c : Chain W)
    (call : TransactOpts W → NetworkConfig → BindingCall W) (auth : TransactOpts W)
    (w : World W) (p : Int) (h : c.SuggestGasPrice = .ok p) :
    gasAdjusted c call auth w
      = (c.binding (call ⟨auth.From, some p⟩ w.config),
          ⟨(AdjustGasPrice (.ok p) w.config.ChainID w.heap).2, w.config,
            w.calls ++ [call ⟨auth.From, some p⟩ w.config]⟩) := by
  have hp := adjustedPrice_ok p w.config.ChainID w.heap
  simp only [adjustedPrice, Prod.mk.injEq] at hp
  unfold gasAdjusted
  rw [h]
  rw [AdjustGasPrice_ok] at hp ⊢
  simp only [Option.map_some', Option.some.injEq] at hp
  simp only [Option.map_some', hp.1]

/-- The modelled `DeployContract` on the token callback when every step
succeeds: the result carries what the binding returned. -/
theorem DeployContract_linkToken_ok {W : Type} (c : Chain W) (fromWallet : W) (w : World W)
    (opts : TransactOpts W) (p : Int) (hopts : c.TransactionOpts fromWallet = .ok opts)
    (hgas : c.SuggestGasPrice = .ok p)
    (hbind : (c.binding (.DeployLinkToken ⟨opts.From, some p⟩)).err = none)
    (hwait : c.waitForTransaction (c.binding (.DeployLinkToken ⟨opts.From, some p⟩)).tx = none) :
    (DeployContract c fromWallet "LINK Token" (linkTokenCallback c) w).1
      = ⟨some (c.binding (.DeployLinkToken ⟨opts.From, some p⟩)).address,
          (c.binding (.DeployLinkToken ⟨opts.From, some p⟩)).tx,
          (c.binding (.DeployLinkToken ⟨opts.From, some p⟩)).contractInstance, none⟩ := by
  unfold DeployContract
  simp only [hopts, linkTokenCallback, gasAdjusted_ok c _ opts w p hgas, hbind, hwait]

/-- C11: on a successful deployment only the token deployment back-fills the
network descriptor. (1) Whenever `DeployContract` returns no error, an address
and a token contract, `DeployLinkTokenContract` returns the handle with that
address and sets `LinkTokenAddress` to the hex form of the address, the rest
of the world being as the submission left it. (2) With `DeployContract` as the
specification describes it and every step succeeding, the handle's address
is the address the token binding deployed at and `LinkTokenAddress` is its hex
form. (3) The four other operations do nothing to the world after the
submission, and (4) with the same `DeployContract` the network descriptor after
them, `LinkTokenAddress` included, is the one before the call. -/
theorem successful_deploy_backfills_only_token {W : Type} (c : Chain W) (fromWallet : W)
    (w : World W) :
    (∀ (submit : Submit W) (a : Address) (i : Instance),
      (submit fromWallet "LINK Token" (linkTokenCallback c) w).1.err = none →
      (submit fromWallet "LINK Token" (linkTokenCallback c) w).1.address = some a →
      assertKind (submit fromWallet "LINK Token" (linkTokenCallback c) w).1.contractInstance
        .LinkToken = some i →
      DeployOp.LinkToken.run c submit fromWallet w
        = (.ret (some ⟨.LinkToken, i, fromWallet, some a⟩, none),
            ⟨(submit fromWallet "LINK Token" (linkTokenCallback c) w).2.heap,
              ⟨(submit fromWallet "LINK Token" (linkTokenCallback c) w).2.config.ChainID,
                c.Hex a⟩,
              (submit fromWallet "LINK Token" (linkTokenCallback c) w).2.calls⟩)) ∧
    (∀ (opts : TransactOpts W) (p : Int) (i : Instance),
      c.TransactionOpts fromWallet = .ok opts →
      c.SuggestGasPrice = .ok p →
      (c.binding (.DeployLinkToken ⟨opts.From, some p⟩)).err = none →
      c.waitForTransaction (c.binding (.DeployLinkToken ⟨opts.From, some p⟩)).tx = none →
      assertKind (c.binding (.DeployLinkToken ⟨opts.From, some p⟩)).contractInstance .LinkToken
        = some i →
      (DeployOp.LinkToken.run c (DeployContract c) fromWallet w).1
        = .ret (some ⟨.LinkToken, i, fromWallet,
            some (c.binding (.DeployLinkToken ⟨opts.From, some p⟩)).address⟩, none) ∧
      (DeployOp.LinkToken.run c (DeployContract c) fromWallet w).2.config.LinkTokenAddress
        = c.Hex (c.binding (.DeployLinkToken ⟨opts.From, some p⟩)).address) ∧
    (∀ (op : DeployOp) (submit : Submit W), op ≠ .LinkToken →
      (op.run c submit fromWallet w).2
        = (submit fromWallet op.contractName (op.callback c) w).2) ∧
    (∀ (op : DeployOp), op ≠ .LinkToken →
      (op.run c (DeployContract c) fromWallet w).2.config.LinkTokenAddress
        = w.config.LinkTokenAddress) := by
  refine ⟨fun submit a i herr haddr hinst =>
      DeployLinkTokenContract_submitted c submit fromWallet w a i herr haddr hinst,
    ?_, fun op submit hop => run_world_of_submit c submit fromWallet op w hop, ?_⟩
  · intro opts p i hopts hgas hbind hwait hinst
    have hsub := DeployContract_linkToken_ok c fromWallet w opts p hopts hgas hbind hwait
    have hrun := DeployLinkTokenContract_submitted c (DeployContract c) fromWallet w
      (c.binding (.DeployLinkToken ⟨opts.From, some p⟩)).address i
      (by rw [hsub]) (by rw [hsub]) (by rw [hsub]; exact hinst)
    simp only [DeployOp.run]
    rw [hrun]
    exact ⟨rfl, rfl⟩
  · intro op hop
    rw [run_world_of_submit c (DeployContract c) fromWallet op w hop, DeployContract_config]

/-- C11 on the toy chain with suggested price 1,000,000,000 on chain 31: the
token deployment returns a handle at address 2748 and writes its hex form,
the storage deployment returns a handle and leaves the descriptor alone. -/
theorem successful_deploy_backfills_only_token_witness :
    ((sampleChain (.ok 1000000000) none).TransactionOpts "alice" = .ok ⟨"alice", none⟩ ∧
      (sampleChain (.ok 1000000000) none).SuggestGasPrice = .ok 1000000000 ∧
      DeployOp.Storage ≠ DeployOp.LinkToken) ∧
    (DeployOp.LinkToken.run (sampleChain (.ok 1000000000) none)
        (DeployContract (sampleChain (.ok 1000000000) none)) "alice" sampleWorld).1
      = .ret (some ⟨.LinkToken, ⟨.LinkToken, 1⟩, "alice", some 2748⟩, none) ∧
    (DeployOp.LinkToken.run (sampleChain (.ok 1000000000) none)
        (DeployContract (sampleChain (.ok 1000000000) none)) "alice"
        sampleWorld).2.config.LinkTokenAddress = "0xabc" ∧
    (DeployOp.Storage.run (sampleChain (.ok 1000000000) none)
        (DeployContract (sampleChain (.ok 1000000000) none)) "alice" sampleWorld).1
      = .ret (some ⟨.Store, ⟨.Store, 1⟩, "alice", none⟩, none) ∧
    (DeployOp.Storage.run (sampleChain (.ok 1000000000) none)
        (DeployContract (sampleChain (.ok 1000000000) none)) "alice"
        sampleWorld).2.config.LinkTokenAddress = sampleWorld.config.LinkTokenAddress := by
  have htoken := (successful_deploy_backfills_only_token (sampleChain (.ok 1000000000) none)
    "alice" sampleWorld).2.1 ⟨"alice", none⟩ 1000000000 ⟨.LinkToken, 1⟩ rfl rfl rfl rfl rfl
  have hstore := (successful_deploy_backfills_only_token (sampleChain (.ok 1000000000) none)
    "alice" sampleWorld).2.2.2 DeployOp.Storage (by decide)
  exact ⟨⟨rfl, rfl, by decide⟩, htoken.1, by rw [htoken.2]; decide, by decide, hstore⟩

/-- On chain 31 with suggested price 1,000,000,000 the storage binding is
invoked once, with the suggested price as gas price. -/
theorem storage_deploy_gas_price_on_chain_31 :
    (DeployOp.Storage.run (sampleChain (.ok 1000000000) none)
        (DeployContract (sampleChain (.ok 1000000000) none)) "alice" sampleWorld).2.calls
      = [.DeployStore ⟨"alice", some 1000000000⟩] := by
  decide

end OcrDeploy
